import Mathlib

/-!
Verification development for the budget web application (`src/main.rs`).

The pipeline under study: a date-window computation, a paginated
transaction fetch with field-level JSON defaults, a keyword-based
categorizer, a fold-based budget aggregator with an on-demand
overflow category, and a debit/credit summarizer.

Monetary amounts are `f64` in the source; they are modelled here as
exact rationals (`ℚ`), following the data model's description of
amounts as signed decimal currency values.  Strings are Lean
`String`s; Rust's `str::to_lowercase` is modelled by a per-character
lowercase map and `str::contains` by a character-list substring check.
-/

/-- Transaction record, from `struct Transaction` in `src/main.rs`:
date, description, and a signed decimal amount. -/
structure Transaction where
  date : String
  description : String
  amount : ℚ
deriving DecidableEq, Repr

/-- Budget category record, from `struct BudgetCategory` in `src/main.rs`. -/
structure BudgetCategory where
  name : String
  allocated_amount : ℚ
  spent_amount : ℚ
  transactions : List Transaction
deriving DecidableEq, Repr

/-- The fixed starting catalog built by `get_budget_categories`:
five categories, each with spent amount 0 and no transactions. -/
def get_budget_categories : List BudgetCategory :=
  [ { name := "Groceries", allocated_amount := 500, spent_amount := 0, transactions := [] },
    { name := "Transportation", allocated_amount := 200, spent_amount := 0, transactions := [] },
    { name := "Entertainment", allocated_amount := 150, spent_amount := 0, transactions := [] },
    { name := "Utilities", allocated_amount := 300, spent_amount := 0, transactions := [] },
    { name := "Dining Out", allocated_amount := 250, spent_amount := 0, transactions := [] } ]

/-- Model of Rust `str::to_lowercase`: lowercase every character.
(Stated over the string's character list so that it evaluates by kernel
reduction.) -/
def to_lowercase (s : String) : String :=
  ⟨s.data.map Char.toLower⟩

/-- Test whether `needle` occurs at the start of `hay` (character lists). -/
def starts_with : List Char → List Char → Bool
  | [], _ => true
  | _ :: _, [] => false
  | a :: as, b :: bs => a == b && starts_with as bs

/-- Test whether `needle` occurs somewhere inside `hay` (character lists). -/
def has_sub (needle : List Char) : List Char → Bool
  | [] => needle.isEmpty
  | c :: t => starts_with needle (c :: t) || has_sub needle t

/-- Model of Rust `str::contains`: `pat` occurs as a substring of `s`. -/
def str_contains (s pat : String) : Bool :=
  has_sub pat.data s.data

/-- The keyword classifier from the body of `categorize_transactions`
(`src/main.rs` lines 156–191): lowercase the description, then walk the
if-chain of substring tests; the fallback is `"Other"`. -/
def category_for (description : String) : String :=
  let description_lower := to_lowercase description
  if str_contains description_lower "woolworths"
      || str_contains description_lower "coles"
      || str_contains description_lower "aldi" then
    "Groceries"
  else if str_contains description_lower "uber"
      || str_contains description_lower "lyft"
      || str_contains description_lower "bus"
      || str_contains description_lower "train" then
    "Transportation"
  else if str_contains description_lower "netflix"
      || str_contains description_lower "spotify"
      || str_contains description_lower "cinema" then
    "Entertainment"
  else if str_contains description_lower "electricity"
      || str_contains description_lower "water"
      || str_contains description_lower "internet"
      || str_contains description_lower "phone" then
    "Utilities"
  else if str_contains description_lower "restaurant"
      || str_contains description_lower "cafe"
      || str_contains description_lower "bar"
      || str_contains description_lower "mcdonalds"
      || str_contains description_lower "kfc" then
    "Dining Out"
  else
    "Other"

/-- The ordered rule table of §4.3 of the specification, written as a
list of (category, keyword set) pairs in the documented priority order. -/
def keyword_rules : List (String × List String) :=
  [ ("Groceries", ["woolworths", "coles", "aldi"]),
    ("Transportation", ["uber", "lyft", "bus", "train"]),
    ("Entertainment", ["netflix", "spotify", "cinema"]),
    ("Utilities", ["electricity", "water", "internet", "phone"]),
    ("Dining Out", ["restaurant", "cafe", "bar", "mcdonalds", "kfc"]) ]

/-- First-match semantics over the ordered rule table, following the
specification's words: the first rule with any keyword occurring as a
substring of the lowercased description wins, else `"Other"`. -/
def first_match_category (description : String) : String :=
  ((keyword_rules.find? (fun r => r.2.any (fun k => str_contains (to_lowercase description) k))).map
    Prod.fst).getD "Other"

example : category_for "bus bar cafe" = "Transportation" := by decide

example : category_for "Woolworths Sydney" = "Groceries" := by decide

example : category_for "zzz" = "Other" := by decide

/-- Update the first category in `cats` whose name is `name` by adding
`|t.amount|` to its spent amount and appending `t` to its transaction
list; the model of the source's `iter_mut().find(..)` followed by the
in-place mutation (`src/main.rs` lines 194–196 and 199–201).  When no
category carries `name` the list is returned unchanged. -/
def add_to_first (cats : List BudgetCategory) (name : String) (t : Transaction) :
    List BudgetCategory :=
  match cats with
  | [] => []
  | c :: cs =>
    if c.name == name then
      { c with
        spent_amount := c.spent_amount + |t.amount|,
        transactions := c.transactions ++ [t] } :: cs
    else
      c :: add_to_first cs name t

/-- One iteration of the loop body of `categorize_transactions`
(`src/main.rs` lines 156–211): classify the transaction, add it to the
matching category if one exists, otherwise to an existing `"Other"`
category, otherwise push a fresh `"Other"` category at the end. -/
def categorize_step (cats : List BudgetCategory) (t : Transaction) :
    List BudgetCategory :=
  let category := category_for t.description
  if cats.any (fun c => c.name == category) then
    add_to_first cats category t
  else if cats.any (fun c => c.name == "Other") then
    add_to_first cats "Other" t
  else
    cats ++ [{ name := "Other", allocated_amount := 0,
               spent_amount := |t.amount|, transactions := [t] }]

/-- The aggregator `categorize_transactions` (`src/main.rs` lines
152–215): fold the loop body over the transactions in arrival order. -/
def categorize_transactions (transactions : List Transaction)
    (budget_categories : List BudgetCategory) : List BudgetCategory :=
  transactions.foldl categorize_step budget_categories

/-- Sum of `spent_amount` over a list of categories. -/
def total_spent (cats : List BudgetCategory) : ℚ :=
  (cats.map (fun c => c.spent_amount)).sum

/-- Projection recording what the aggregator may not change on a
pre-existing category: its name and its allocated amount. -/
def name_alloc (c : BudgetCategory) : String × ℚ :=
  (c.name, c.allocated_amount)

/-- Sum of spent amounts over the categories named `"Other"`. -/
def other_spent (cats : List BudgetCategory) : ℚ :=
  ((cats.filter (fun c => c.name == "Other")).map (fun c => c.spent_amount)).sum

/-- Classification test used by the overflow-category claims. -/
def is_other (t : Transaction) : Bool :=
  category_for t.description == "Other"

/-- The expense/income fold of `get_expenses` (`src/main.rs` lines
656–693): negative amounts add their absolute value to total expenses,
other amounts add to total incoming; the pair starts at `(0, 0)`. -/
def summarize_step (totals : ℚ × ℚ) (amount : ℚ) : ℚ × ℚ :=
  if amount < 0 then (totals.1 + |amount|, totals.2) else (totals.1, totals.2 + amount)

/-- Fold of `summarize_step` over the amounts in arrival order, starting
from `(0, 0)`; first component is total expenses, second is total
incoming. -/
def summarize (amounts : List ℚ) : ℚ × ℚ :=
  amounts.foldl summarize_step (0, 0)

/-- Zero-padded two-digit month rendering, the model of the `{:02}`
format used in `src/main.rs` lines 91–97. -/
def pad2 (n : Nat) : String :=
  if n < 10 then "0" ++ toString n else toString n

/-- Start of the date window (`src/main.rs` line 91): first day of the
current month at midnight UTC, rendered from the year and month of
`now`. -/
def start_date (year : Int) (month : Nat) : String :=
  toString year ++ "-" ++ pad2 month ++ "-01T00:00:00Z"

/-- End of the date window (`src/main.rs` lines 94–98): first day of the
next month at midnight UTC, rolling the year forward from December. -/
def end_date (year : Int) (month : Nat) : String :=
  if month == 12 then
    toString (year + 1) ++ "-01-01T00:00:00Z"
  else
    toString year ++ "-" ++ pad2 (month + 1) ++ "-01T00:00:00Z"

/-- Year and month of the calendar month following `(year, month)`. -/
def next_month (year : Int) (month : Nat) : Int × Nat :=
  if month = 12 then (year + 1, 1) else (year, month + 1)

/-- Linear index of a calendar month, used to compare months in time. -/
def month_index (year : Int) (month : Nat) : Int :=
  12 * year + month

/-- Untyped JSON values, the model of `serde_json::Value`. -/
inductive Json where
  | null : Json
  | bool (b : Bool) : Json
  | num (q : ℚ) : Json
  | str (s : String) : Json
  | arr (elems : List Json) : Json
  | obj (fields : List (String × Json)) : Json

/-- Indexing a JSON value by key, the model of `Value::index` for string
keys: a missing key or a non-object value yields `null`. -/
def Json.idx (j : Json) (key : String) : Json :=
  match j with
  | .obj fields =>
    match fields.lookup key with
    | some v => v
    | none => .null
  | _ => .null

/-- Model of `Value::as_str`. -/
def Json.as_str : Json → Option String
  | .str s => some s
  | _ => none

/-- Model of `Value::as_array`. -/
def Json.as_arr : Json → Option (List Json)
  | .arr elems => some elems
  | _ => none

/-- Numeric value of a list of decimal digit characters. -/
def digits_to_nat (ds : List Char) : Nat :=
  ds.foldl (fun acc c => acc * 10 + (c.toNat - 48)) 0

/-- Lexical phase of decimal parsing: split a string into an optional
sign, integer digits and fraction digits, failing on any other shape.
The result holds the sign flag, the integer part, the fraction part and
the number of fraction digits, all in decidable types. -/
def parse_decimal_parts (s : String) : Option (Bool × Nat × Nat × Nat) :=
  let cs := s.data
  let signed := cs.head? = some '-'
  let body := if cs.head? = some '-' || cs.head? = some '+' then cs.tail else cs
  let int_part := body.takeWhile Char.isDigit
  let rest := body.dropWhile Char.isDigit
  match rest with
  | [] =>
    if int_part.isEmpty then none
    else some (signed, digits_to_nat int_part, 0, 0)
  | c :: frac_cs =>
    if c = '.' then
      let frac := frac_cs.takeWhile Char.isDigit
      let rest2 := frac_cs.dropWhile Char.isDigit
      if rest2.isEmpty && !(int_part.isEmpty && frac.isEmpty) then
        some (signed, digits_to_nat int_part, digits_to_nat frac, frac.length)
      else none
    else none

/-- Exact rational value of a parsed decimal: sign, integer part, and
fraction scaled by the number of fraction digits. -/
def decimal_value (p : Bool × Nat × Nat × Nat) : ℚ :=
  (if p.1 then -1 else 1) * ((p.2.1 : ℚ) + (p.2.2.1 : ℚ) / (10 : ℚ) ^ p.2.2.2)

/-- Model of Rust `str::parse::<f64>` on decimal literals: an optional
sign followed by digits with at most one decimal point (at least one
digit overall), evaluated exactly; any other shape fails.  The exotic
forms accepted by the Rust grammar (exponents, infinities, NaN) are not
amounts and are not modelled. -/
def parse_decimal (s : String) : Option ℚ :=
  (parse_decimal_parts s).map decimal_value

example : parse_decimal_parts "0.00" = some (false, 0, 0, 2) := by decide

example : parse_decimal_parts "-50.25" = some (true, 50, 25, 2) := by decide

example : parse_decimal_parts "abc" = none := by decide

example : parse_decimal_parts "" = none := by decide

example : parse_decimal "-50.25" = some (-201/4) := by
  have h : parse_decimal_parts "-50.25" = some (true, 50, 25, 2) := by decide
  rw [parse_decimal, h]
  norm_num [Option.map, decimal_value]

/-- Mapping of one element of a page's `data` array to a `Transaction`
(`src/main.rs` lines 117–134): the amount string defaults to `"0.00"`
when absent, the parsed amount defaults to `0.0` on parse failure, and
the date and description default to the empty string when absent. -/
def parse_transaction (item : Json) : Transaction :=
  let amount_str := ((((item.idx "attributes").idx "amount").idx "value").as_str).getD "0.00"
  let amount := (parse_decimal amount_str).getD 0
  { date := (((item.idx "attributes").idx "createdAt").as_str).getD ""
    description := (((item.idx "attributes").idx "description").as_str).getD ""
    amount := amount }

/-- One HTTP page response, as the fetch loop observes it: either a
successful response with a parsed JSON body, or a non-success response
carrying its body text. -/
inductive HttpResp where
  | ok (body : Json) : HttpResp
  | fail (text : String) : HttpResp

/-- JSON elements of a page's `data` array, when the payload has one. -/
def page_data (j : Json) : Option (List Json) :=
  (j.idx "data").as_arr

/-- Next-page cursor of a payload: the string under `links.next`,
absent when that path is missing or null. -/
def page_next (j : Json) : Option String :=
  ((j.idx "links").idx "next").as_str

/-- The pagination loop of `fetch_transactions` (`src/main.rs` lines
107–147), run against a sequence of page responses consumed in request
order.  A non-success response aborts the whole fetch with the error
message built at lines 141–144; a success response contributes its
`data` elements and the loop continues exactly when `links.next` is a
string; a payload without a `data` array ends the loop normally.  When
the loop asks for a page beyond the provided sequence the accumulated
transactions are returned (the mock sequence is exhausted). -/
def fetch_from : List HttpResp → List Transaction → Except String (List Transaction)
  | [], acc => .ok acc
  | .fail text :: _, _ =>
    .error ("Failed to fetch transactions: " ++ text)
  | .ok j :: rest, acc =>
    match page_data j with
    | none => .ok acc
    | some data =>
      let acc2 := acc ++ data.map parse_transaction
      match page_next j with
      | none => .ok acc2
      | some _ => fetch_from rest acc2

/-- Entry point of the fetch model (`fetch_transactions` in
`src/main.rs`): start the loop with an empty accumulator. -/
def fetch_transactions (pages : List HttpResp) : Except String (List Transaction) :=
  fetch_from pages []

/-- A page response that keeps the loop going: success, with a `data`
array and a next-page cursor. -/
def continues_page (r : HttpResp) : Bool :=
  match r with
  | .ok j => (page_data j).isSome && (page_next j).isSome
  | .fail _ => false

/-- A successful page response at which the loop stops: either no
`data` array, or no next-page cursor. -/
def stops_page (r : HttpResp) : Bool :=
  match r with
  | .ok j => !(page_data j).isSome || !(page_next j).isSome
  | .fail _ => false

/-- Transactions contributed by one page response: the mapped `data`
elements of a successful payload, nothing otherwise. -/
def page_txns (r : HttpResp) : List Transaction :=
  match r with
  | .ok j =>
    match page_data j with
    | some data => data.map parse_transaction
    | none => []
  | .fail _ => []

/-- The six category names the classifier can produce. -/
def category_names : List String :=
  ["Groceries", "Transportation", "Entertainment", "Utilities", "Dining Out", "Other"]

lemma category_for_mem (d : String) : category_for d ∈ category_names := by
  simp only [category_for, category_names]
  repeat' split
  all_goals simp

lemma category_for_eq_first_match (d : String) :
    category_for d = first_match_category d := by
  simp only [category_for, first_match_category, keyword_rules, List.find?_cons, List.find?_nil,
    List.any_cons, List.any_nil, Bool.or_false, Bool.or_assoc, apply_ite (Option.map Prod.fst),
    Option.map_some', Option.map_none', apply_ite (fun o : Option String => o.getD "Other"),
    Option.getD_some, Option.getD_none]
  repeat' split
  all_goals simp_all

lemma category_for_no_match (d : String)
    (h : keyword_rules.all (fun r => r.2.all (fun k => !str_contains (to_lowercase d) k)) = true) :
    category_for d = "Other" := by
  rw [category_for_eq_first_match]
  unfold first_match_category
  have hnone :
      keyword_rules.find? (fun r => r.2.any (fun k => str_contains (to_lowercase d) k)) = none := by
    rw [List.find?_eq_none]
    intro r hr
    simp only [List.all_eq_true] at h
    have hr2 := h r hr
    simp only [List.any_eq_true]
    rintro ⟨k, hk, hks⟩
    have h3 := hr2 k hk
    simp [hks] at h3
  rw [hnone]
  rfl

/-- Claim C2: the categorizer is a total function of the description
agreeing with first-match semantics over the ordered rule table
(Groceries, Transportation, Entertainment, Utilities, Dining Out); it
always returns one of the six category names; a description containing
both "bus" and "bar" such as "bus bar cafe" classifies as
Transportation (rule 2 precedes rule 5); and a description matching no
rule classifies as "Other". -/
theorem claim_C2 (d : String) :
    category_for d = first_match_category d
    ∧ category_for d ∈ category_names
    ∧ category_for "bus bar cafe" = "Transportation"
    ∧ (keyword_rules.all (fun r => r.2.all (fun k => !str_contains (to_lowercase d) k)) = true →
        category_for d = "Other") :=
  ⟨category_for_eq_first_match d, category_for_mem d, by decide, category_for_no_match d⟩

/-- Witness for C2 at the concrete descriptions "zzz" (matching no
rule) and "bus bar cafe". -/
theorem claim_C2_witness :
    category_for "zzz" = first_match_category "zzz"
    ∧ category_for "zzz" ∈ category_names
    ∧ category_for "bus bar cafe" = "Transportation"
    ∧ category_for "zzz" = "Other" :=
  ⟨(claim_C2 "zzz").1, (claim_C2 "zzz").2.1, (claim_C2 "zzz").2.2.1,
    (claim_C2 "zzz").2.2.2 (by decide)⟩

/-- Claim C9: classification depends only on the lowercased
description, so any two case-variants of a description classify
identically. -/
theorem claim_C9 (s t : String) (h : to_lowercase s = to_lowercase t) :
    category_for s = category_for t := by
  unfold category_for
  rw [h]

/-- Witness for C9: "WOOLWORTHS" and "woolworths" classify identically. -/
theorem claim_C9_witness :
    to_lowercase "WOOLWORTHS" = to_lowercase "woolworths"
    ∧ category_for "WOOLWORTHS" = category_for "woolworths" :=
  ⟨by decide, claim_C9 "WOOLWORTHS" "woolworths" (by decide)⟩

lemma total_spent_nil : total_spent [] = 0 := rfl

lemma total_spent_cons (c : BudgetCategory) (cs : List BudgetCategory) :
    total_spent (c :: cs) = c.spent_amount + total_spent cs := by
  simp [total_spent]

lemma total_spent_append (l1 l2 : List BudgetCategory) :
    total_spent (l1 ++ l2) = total_spent l1 + total_spent l2 := by
  simp [total_spent]

lemma add_to_first_total_spent (cats : List BudgetCategory) (n : String) (t : Transaction) :
    total_spent (add_to_first cats n t) =
      total_spent cats + (if cats.any (fun c => c.name == n) then |t.amount| else 0) := by
  induction cats with
  | nil => simp [add_to_first, total_spent]
  | cons c cs ih =>
    rw [add_to_first]
    cases h : (c.name == n) with
    | true =>
      simp only [List.any_cons, h, Bool.true_or, if_true]
      simp only [total_spent_cons]
      ring
    | false =>
      simp only [List.any_cons, h, Bool.false_or, Bool.false_eq_true, if_false]
      simp only [total_spent_cons, ih]
      ring

lemma categorize_step_total_spent (cats : List BudgetCategory) (t : Transaction) :
    total_spent (categorize_step cats t) = total_spent cats + |t.amount| := by
  simp only [categorize_step]
  cases h1 : cats.any (fun c => c.name == category_for t.description) with
  | true => simp [h1, add_to_first_total_spent]
  | false =>
    cases h2 : cats.any (fun c => c.name == "Other") with
    | true => simp [h1, h2, add_to_first_total_spent]
    | false => simp [h1, h2, total_spent_append, total_spent_cons, total_spent_nil]

lemma categorize_total_spent (ts : List Transaction) :
    ∀ cats : List BudgetCategory,
      total_spent (categorize_transactions ts cats) =
        total_spent cats + (ts.map (fun t => |t.amount|)).sum := by
  induction ts with
  | nil => intro cats; simp [categorize_transactions]
  | cons t ts ih =>
    intro cats
    simp only [categorize_transactions, List.foldl_cons] at *
    rw [ih, categorize_step_total_spent, List.map_cons, List.sum_cons]
    ring

/-- Claim C1: for every input sequence and the fixed starting catalog
(all spent amounts 0), the sum of spent amounts over all categories
returned by the aggregator equals the sum of absolute values of the
input transaction amounts. -/
theorem claim_C1 (ts : List Transaction) :
    total_spent (categorize_transactions ts get_budget_categories) =
      (ts.map (fun t => |t.amount|)).sum := by
  rw [categorize_total_spent]
  norm_num [total_spent, get_budget_categories]

lemma add_to_first_map_name_alloc (cats : List BudgetCategory) (n : String) (t : Transaction) :
    (add_to_first cats n t).map name_alloc = cats.map name_alloc := by
  induction cats with
  | nil => rfl
  | cons c cs ih =>
    rw [add_to_first]
    cases h : (c.name == n) with
    | true => simp [name_alloc]
    | false => simp [ih]

lemma any_name_eq (cats : List BudgetCategory) (x : String) :
    cats.any (fun c => c.name == x) = (cats.map name_alloc).any (fun p => p.1 == x) := by
  induction cats with
  | nil => rfl
  | cons c cs ih => simp [ih, name_alloc]

lemma categorize_step_map_name_alloc (cats : List BudgetCategory) (t : Transaction) :
    (categorize_step cats t).map name_alloc =
      if cats.any (fun c => c.name == category_for t.description)
          || cats.any (fun c => c.name == "Other") then
        cats.map name_alloc
      else
        cats.map name_alloc ++ [("Other", (0 : ℚ))] := by
  simp only [categorize_step]
  cases h1 : cats.any (fun c => c.name == category_for t.description) with
  | true => simp [h1, add_to_first_map_name_alloc]
  | false =>
    cases h2 : cats.any (fun c => c.name == "Other") with
    | true => simp [h1, h2, add_to_first_map_name_alloc]
    | false => simp [h1, h2, name_alloc]

lemma categorize_map_name_alloc (ts : List Transaction) :
    ∀ cats : List BudgetCategory,
      (categorize_transactions ts cats).map name_alloc = cats.map name_alloc ∨
      ((categorize_transactions ts cats).map name_alloc =
          cats.map name_alloc ++ [("Other", (0 : ℚ))]
        ∧ cats.any (fun c => c.name == "Other") = false) := by
  induction ts with
  | nil => intro cats; left; rfl
  | cons t ts ih =>
    intro cats
    simp only [categorize_transactions, List.foldl_cons] at *
    have hstep := categorize_step_map_name_alloc cats t
    cases h2 : cats.any (fun c => c.name == "Other") with
    | true =>
      rw [h2] at hstep
      simp only [Bool.or_true, if_true] at hstep
      rcases ih (categorize_step cats t) with hrec | ⟨hrec, hno⟩
      · left; rw [hrec, hstep]
      · rw [any_name_eq, hstep, ← any_name_eq, h2] at hno
        exact absurd hno (by simp)
    | false =>
      cases h1 : cats.any (fun c => c.name == category_for t.description) with
      | true =>
        rw [h1] at hstep
        simp only [Bool.true_or, if_true] at hstep
        rcases ih (categorize_step cats t) with hrec | ⟨hrec, _⟩
        · left; rw [hrec, hstep]
        · right
          refine ⟨?_, rfl⟩
          rw [hrec, hstep]
      | false =>
        rw [h1, h2] at hstep
        simp only [Bool.or_false, Bool.false_eq_true, if_false] at hstep
        rcases ih (categorize_step cats t) with hrec | ⟨hrec, hno⟩
        · right
          refine ⟨?_, rfl⟩
          rw [hrec, hstep]
        · rw [any_name_eq, hstep] at hno
          simp at hno
/-- Claim C10: for every input sequence and starting catalog, the
aggregator leaves the name and allocated amount of every pre-existing
category unchanged and in place (no removal, no reordering); the only
change to the catalog's shape is a possible single overflow category
("Other", allocated 0) appended at the end.  Only the spent amounts and
transaction lists of categories are modified. -/
theorem claim_C10 (ts : List Transaction) (cats : List BudgetCategory) :
    (categorize_transactions ts cats).map name_alloc = cats.map name_alloc ∨
    (categorize_transactions ts cats).map name_alloc =
      cats.map name_alloc ++ [("Other", (0 : ℚ))] :=
  (categorize_map_name_alloc ts cats).imp id And.left

lemma summarize_fold_fst_le (l : List ℚ) :
    ∀ p : ℚ × ℚ, p.1 ≤ (l.foldl summarize_step p).1 := by
  induction l with
  | nil => intro p; simp
  | cons a l ih =>
    intro p
    simp only [List.foldl_cons]
    refine le_trans ?_ (ih (summarize_step p a))
    simp only [summarize_step]
    split
    · simp [abs_nonneg]
    · simp

/-- Claim C8: the summarizer adds the absolute value of each negative
amount to total expenses and each other amount to total incoming, so
total expenses is never negative; on the inputs −50, 30, −20 it yields
total expenses 70 and total incoming 30, a net position of −40. -/
theorem claim_C8 (amounts : List ℚ) (a : ℚ) :
    0 ≤ (summarize amounts).1
    ∧ summarize (amounts ++ [a]) =
        (if a < 0 then ((summarize amounts).1 + |a|, (summarize amounts).2)
          else ((summarize amounts).1, (summarize amounts).2 + a))
    ∧ summarize [-50, 30, -20] = (70, 30)
    ∧ (summarize [-50, 30, -20]).2 - (summarize [-50, 30, -20]).1 = -40 := by
  refine ⟨summarize_fold_fst_le amounts (0, 0), ?_, ?_, ?_⟩
  · simp [summarize, List.foldl_append, summarize_step]
  · norm_num [summarize, summarize_step, abs_of_nonpos, abs_of_neg]
  · norm_num [summarize, summarize_step, abs_of_nonpos, abs_of_neg]

/-- Claim C6: for every year and month (1–12), the window's end string
is exactly the start-of-month string of the following month, with the
year incremented when the month is December; the following month is
strictly later in time; and for December 2024 the window is
2024-12-01T00:00:00Z to 2025-01-01T00:00:00Z. -/
theorem claim_C6 (y : Int) (m : Nat) (h1 : 1 ≤ m) (h2 : m ≤ 12) :
    end_date y m = start_date (next_month y m).1 (next_month y m).2
    ∧ month_index y m < month_index (next_month y m).1 (next_month y m).2
    ∧ start_date 2024 12 = "2024-12-01T00:00:00Z"
    ∧ end_date 2024 12 = "2025-01-01T00:00:00Z" := by
  refine ⟨?_, ?_, by decide, by decide⟩
  · by_cases hm : m = 12
    · subst hm
      simp only [end_date, next_month, if_pos rfl, beq_self_eq_true, if_true]
      rw [start_date, String.append_assoc, String.append_assoc]
      rfl
    · have hb : (m == 12) = false := by simpa using hm
      simp only [end_date, next_month, hb, if_neg hm, Bool.false_eq_true, if_false]
      rfl
  · by_cases hm : m = 12
    · subst hm
      simp [next_month, month_index]
      omega
    · simp [next_month, month_index, hm]

/-- Witness for C6 at December 2024. -/
theorem claim_C6_witness :
    end_date 2024 12 = start_date (next_month 2024 12).1 (next_month 2024 12).2
    ∧ month_index 2024 12 < month_index (next_month 2024 12).1 (next_month 2024 12).2
    ∧ start_date 2024 12 = "2024-12-01T00:00:00Z"
    ∧ end_date 2024 12 = "2025-01-01T00:00:00Z" :=
  claim_C6 2024 12 (by decide) (by decide)

lemma parse_decimal_default : parse_decimal "0.00" = some 0 := by
  have h : parse_decimal_parts "0.00" = some (false, 0, 0, 2) := by decide
  rw [parse_decimal, h]
  norm_num [Option.map, decimal_value]

/-- Claim C7: mapping a JSON page element to a `Transaction` never
fails: a missing or non-string amount field, or an unparseable amount
string, yields amount 0; a missing `createdAt` or `description` yields
the empty-string default; processing always produces a record. -/
theorem claim_C7 (item : Json) :
    (((((item.idx "attributes").idx "amount").idx "value").as_str = none →
        (parse_transaction item).amount = 0))
    ∧ (∀ s, ((((item.idx "attributes").idx "amount").idx "value").as_str = some s →
        parse_decimal s = none → (parse_transaction item).amount = 0))
    ∧ (((item.idx "attributes").idx "createdAt").as_str = none →
        (parse_transaction item).date = "")
    ∧ (((item.idx "attributes").idx "description").as_str = none →
        (parse_transaction item).description = "") := by
  refine ⟨?_, ?_, ?_, ?_⟩
  · intro h
    simp [parse_transaction, h, parse_decimal_default]
  · intro s hs hp
    simp [parse_transaction, hs, hp]
  · intro h
    simp [parse_transaction, h]
  · intro h
    simp [parse_transaction, h]

/-- Witness for C7: an element with no fields at all defaults every
field, and an element whose amount string is unparseable defaults the
amount to 0. -/
theorem claim_C7_witness :
    (parse_transaction (Json.obj []) = { date := "", description := "", amount := 0 })
    ∧ (parse_transaction (Json.obj [("attributes",
        Json.obj [("amount", Json.obj [("value", Json.str "abc")])])])).amount = 0 := by
  constructor
  · have h1 := (claim_C7 (Json.obj [])).1 (by decide)
    have h2 := (claim_C7 (Json.obj [])).2.2.1 (by decide)
    have h3 := (claim_C7 (Json.obj [])).2.2.2 (by decide)
    cases hpt : parse_transaction (Json.obj []) with
    | mk d de a =>
      rw [hpt] at h1 h2 h3
      simp only at h1 h2 h3
      simp [h1, h2, h3]
  · exact (claim_C7 _).2.1 "abc" (by decide) (by decide)

lemma fetch_from_append (good : List HttpResp) (h : good.all continues_page = true) :
    ∀ (tail : List HttpResp) (acc : List Transaction),
      fetch_from (good ++ tail) acc = fetch_from tail (acc ++ (good.map page_txns).flatten) := by
  induction good with
  | nil => intro tail acc; simp
  | cons r rs ih =>
    intro tail acc
    rw [List.all_cons, Bool.and_eq_true] at h
    cases r with
    | fail text => simp [continues_page] at h
    | ok j =>
      have hc := h.1
      simp only [continues_page] at hc
      rw [Bool.and_eq_true, Option.isSome_iff_exists, Option.isSome_iff_exists] at hc
      obtain ⟨⟨data, hdata⟩, ⟨nxt, hnxt⟩⟩ := hc
      rw [List.cons_append, fetch_from, hdata, hnxt]
      dsimp only
      rw [ih h.2 tail]
      simp [page_txns, hdata]

/-- Claim C3: for every page sequence, a non-success page response
aborts the fetch with an error carrying the response body text; the
caller gets no partial transaction list and no later page is consumed
(the result ignores everything after the failing response). -/
theorem claim_C3 (good : List HttpResp) (text : String) (rest : List HttpResp)
    (h : good.all continues_page = true) :
    fetch_transactions (good ++ HttpResp.fail text :: rest) =
      .error ("Failed to fetch transactions: " ++ text) := by
  rw [fetch_transactions, fetch_from_append good h]
  rfl

/-- Witness for C3: one successful page followed by a failing response
and a junk page; the fetch aborts with the failing body text. -/
theorem claim_C3_witness :
    fetch_transactions
      [ HttpResp.ok (Json.obj [("data", Json.arr []),
          ("links", Json.obj [("next", Json.str "page2")])]),
        HttpResp.fail "quota exceeded",
        HttpResp.ok (Json.obj []) ] =
      .error ("Failed to fetch transactions: " ++ "quota exceeded") :=
  claim_C3
    [ HttpResp.ok (Json.obj [("data", Json.arr []),
        ("links", Json.obj [("next", Json.str "page2")])]) ]
    "quota exceeded"
    [ HttpResp.ok (Json.obj []) ]
    (by decide)

/-- Claim C4: for every sequence of successful pages, the fetch stops
at the first page with no `links.next` cursor or no `data` array (the
latter treated as "no more pages", not an error) and returns exactly
the concatenation of the visited pages' transactions in page order;
pages after the stopping page are never consumed. -/
theorem claim_C4 (good : List HttpResp) (last : HttpResp) (rest : List HttpResp)
    (hgood : good.all continues_page = true) (hlast : stops_page last = true) :
    fetch_transactions (good ++ last :: rest) =
      .ok (((good ++ [last]).map page_txns).flatten) := by
  rw [fetch_transactions, fetch_from_append good hgood]
  cases last with
  | fail text => simp [stops_page] at hlast
  | ok j =>
    cases hd : page_data j with
    | none => simp [fetch_from, hd, page_txns]
    | some data =>
      cases hn : page_next j with
      | none => simp [fetch_from, hd, hn, page_txns]
      | some u => simp [stops_page, hd, hn] at hlast

lemma parse_decimal_neg1550 : parse_decimal "-15.50" = some (-31/2) := by
  have h : parse_decimal_parts "-15.50" = some (true, 15, 50, 2) := by decide
  rw [parse_decimal, h]
  norm_num [Option.map, decimal_value]

lemma parse_decimal_400 : parse_decimal "4.00" = some 4 := by
  have h : parse_decimal_parts "4.00" = some (false, 4, 0, 2) := by decide
  rw [parse_decimal, h]
  norm_num [Option.map, decimal_value]

/-- Mock page 1: one transaction, with a next-page cursor. -/
def page_one : HttpResp :=
  HttpResp.ok (Json.obj
    [ ("data", Json.arr
        [ Json.obj [("attributes", Json.obj
            [ ("createdAt", Json.str "2024-05-02T10:00:00Z"),
              ("description", Json.str "Uber trip"),
              ("amount", Json.obj [("value", Json.str "-15.50")]) ])] ]),
      ("links", Json.obj [("next", Json.str "page2")]) ])

/-- Mock page 2: one transaction, no next-page cursor. -/
def page_two : HttpResp :=
  HttpResp.ok (Json.obj
    [ ("data", Json.arr
        [ Json.obj [("attributes", Json.obj
            [ ("createdAt", Json.str "2024-05-03T09:00:00Z"),
              ("description", Json.str "Coffee"),
              ("amount", Json.obj [("value", Json.str "4.00")]) ])] ]) ])

/-- Witness for C4: two successful pages, the second without a cursor,
followed by an unreachable failing response; the fetch returns exactly
the two pages' transactions in order. -/
theorem claim_C4_witness :
    fetch_transactions [page_one, page_two, HttpResp.fail "never requested"] =
      .ok [ { date := "2024-05-02T10:00:00Z", description := "Uber trip", amount := -31/2 },
            { date := "2024-05-03T09:00:00Z", description := "Coffee", amount := 4 } ] := by
  have h := claim_C4 [page_one] page_two [HttpResp.fail "never requested"] (by decide) (by decide)
  rw [List.singleton_append] at h
  rw [h]
  simp only [Except.ok.injEq]
  have h1 : page_txns page_one =
      [{ date := "2024-05-02T10:00:00Z", description := "Uber trip",
         amount := (parse_decimal "-15.50").getD 0 }] := by
    simp [page_one, page_txns, page_data, Json.idx, Json.as_arr, parse_transaction, Json.as_str,
      List.lookup]
  have h2 : page_txns page_two =
      [{ date := "2024-05-03T09:00:00Z", description := "Coffee",
         amount := (parse_decimal "4.00").getD 0 }] := by
    simp [page_two, page_txns, page_data, Json.idx, Json.as_arr, parse_transaction, Json.as_str,
      List.lookup]
  rw [parse_decimal_neg1550] at h1
  rw [parse_decimal_400] at h2
  simp [h1, h2]

/-- Names of the five catalog categories, in catalog order. -/
def main_names : List String :=
  ["Groceries", "Transportation", "Entertainment", "Utilities", "Dining Out"]

lemma other_spent_cons (c : BudgetCategory) (cs : List BudgetCategory) :
    other_spent (c :: cs) =
      (if c.name == "Other" then c.spent_amount else 0) + other_spent cs := by
  simp only [other_spent, List.filter_cons]
  cases h : (c.name == "Other") with
  | true => simp [h]
  | false => simp [h]

lemma other_spent_append (l1 l2 : List BudgetCategory) :
    other_spent (l1 ++ l2) = other_spent l1 + other_spent l2 := by
  simp [other_spent, List.filter_append]

lemma add_to_first_other_spent (cats : List BudgetCategory) (n : String) (t : Transaction) :
    other_spent (add_to_first cats n t) =
      other_spent cats +
        (if (n == "Other") && cats.any (fun c => c.name == n) then |t.amount| else 0) := by
  induction cats with
  | nil => simp [add_to_first, other_spent]
  | cons c cs ih =>
    rw [add_to_first]
    cases h : (c.name == n) with
    | true =>
      have hcn : c.name = n := by simpa using h
      simp only [List.any_cons, h, Bool.true_or, Bool.and_true, if_true]
      rw [other_spent_cons, other_spent_cons]
      dsimp only
      rw [hcn]
      cases hno : (n == "Other") with
      | true => simp [hno]; ring
      | false => simp [hno]
    | false =>
      simp only [List.any_cons, h, Bool.false_or, Bool.false_eq_true, if_false]
      rw [other_spent_cons, other_spent_cons, ih]
      ring

lemma categorize_step_found_other_spent (cats : List BudgetCategory) (t : Transaction)
    (x : String) (hx : category_for t.description = x) (hxo : (x == "Other") = false)
    (hany : cats.any (fun c => c.name == x) = true) :
    other_spent (categorize_step cats t) = other_spent cats := by
  simp only [categorize_step, hx, hany, if_true]
  rw [add_to_first_other_spent]
  simp [hxo]

lemma categorize_step_other_spent (cats : List BudgetCategory) (t : Transaction)
    (hfive : ∀ x ∈ main_names, cats.any (fun c => c.name == x) = true) :
    other_spent (categorize_step cats t) =
      other_spent cats + (if is_other t then |t.amount| else 0) := by
  have hmem := category_for_mem t.description
  simp only [category_names, List.mem_cons, List.not_mem_nil, or_false] at hmem
  rcases hmem with hx | hx | hx | hx | hx | hx
  · rw [categorize_step_found_other_spent cats t "Groceries" hx (by decide)
      (hfive "Groceries" (by simp [main_names]))]
    simp [is_other, hx]
  · rw [categorize_step_found_other_spent cats t "Transportation" hx (by decide)
      (hfive "Transportation" (by simp [main_names]))]
    simp [is_other, hx]
  · rw [categorize_step_found_other_spent cats t "Entertainment" hx (by decide)
      (hfive "Entertainment" (by simp [main_names]))]
    simp [is_other, hx]
  · rw [categorize_step_found_other_spent cats t "Utilities" hx (by decide)
      (hfive "Utilities" (by simp [main_names]))]
    simp [is_other, hx]
  · rw [categorize_step_found_other_spent cats t "Dining Out" hx (by decide)
      (hfive "Dining Out" (by simp [main_names]))]
    simp [is_other, hx]
  · cases ho : cats.any (fun c => c.name == "Other") with
    | true =>
      simp only [categorize_step, hx, ho, if_true]
      rw [add_to_first_other_spent]
      simp [ho, is_other, hx]
    | false =>
      simp only [categorize_step, hx, ho, Bool.false_eq_true, if_false]
      rw [other_spent_append]
      simp [other_spent, is_other, hx]

lemma categorize_step_any_mono (cats : List BudgetCategory) (t : Transaction) (x : String)
    (h : cats.any (fun c => c.name == x) = true) :
    (categorize_step cats t).any (fun c => c.name == x) = true := by
  rw [any_name_eq] at h ⊢
  rw [categorize_step_map_name_alloc]
  split
  · exact h
  · simp [List.any_append, h]

lemma categorize_other_spent (ts : List Transaction) :
    ∀ cats : List BudgetCategory,
      (∀ x ∈ main_names, cats.any (fun c => c.name == x) = true) →
      other_spent (categorize_transactions ts cats) =
        other_spent cats + ((ts.filter is_other).map (fun t => |t.amount|)).sum := by
  induction ts with
  | nil => intro cats _; simp [categorize_transactions]
  | cons t ts ih =>
    intro cats hfive
    simp only [categorize_transactions, List.foldl_cons] at *
    rw [ih (categorize_step cats t) (fun x hx => categorize_step_any_mono cats t x (hfive x hx))]
    rw [categorize_step_other_spent cats t hfive]
    cases hio : is_other t with
    | true => simp [List.filter_cons, hio]; ring
    | false => simp [List.filter_cons, hio]

lemma categorize_shape (ts : List Transaction) :
    ∀ (cats : List BudgetCategory) (b : Bool),
      cats.map name_alloc =
        get_budget_categories.map name_alloc ++ (if b then [("Other", (0 : ℚ))] else []) →
      (categorize_transactions ts cats).map name_alloc =
        get_budget_categories.map name_alloc ++
          (if b || ts.any is_other then [("Other", (0 : ℚ))] else []) := by
  induction ts with
  | nil =>
    intro cats b h
    simpa [categorize_transactions] using h
  | cons t ts ih =>
    intro cats b h
    simp only [categorize_transactions, List.foldl_cons] at ih ⊢
    have hstep := categorize_step_map_name_alloc cats t
    have hmid : (categorize_step cats t).map name_alloc =
        get_budget_categories.map name_alloc ++
          (if b || is_other t then [("Other", (0 : ℚ))] else []) := by
      have hmem := category_for_mem t.description
      simp only [category_names, List.mem_cons, List.not_mem_nil, or_false] at hmem
      have hother : cats.any (fun c => c.name == "Other") = b := by
        rw [any_name_eq, h]
        cases b <;> simp [get_budget_categories, name_alloc]
      rcases hmem with hx | hx | hx | hx | hx | hx
      all_goals try {
        have h1 : cats.any (fun c => c.name == category_for t.description) = true := by
          rw [hx, any_name_eq, h]
          cases b <;> simp [get_budget_categories, name_alloc]
        have hio : is_other t = false := by simp [is_other, hx]
        simp only [h1, Bool.true_or, if_true] at hstep
        rw [hstep, h, hio, Bool.or_false] }
      have h1 : cats.any (fun c => c.name == category_for t.description) = b := by
        rw [hx]; exact hother
      have hio : is_other t = true := by simp [is_other, hx]
      cases b with
      | true =>
        simp only [Bool.true_or, if_true] at h1 hstep
        simp only [h1, Bool.true_or, if_true] at hstep
        rw [hstep, h]
        simp [hio]
      | false =>
        simp only [Bool.false_eq_true, if_false] at hother
        simp only [h1, hother, Bool.or_false, Bool.false_eq_true, if_false] at hstep
        rw [hstep, h]
        simp [hio]
    have hrec := ih (categorize_step cats t) (b || is_other t) hmid
    rw [hrec]
    congr 2
    simp [List.any_cons, Bool.or_assoc]

lemma filter_other_length (res : List BudgetCategory) :
    (res.filter (fun c => c.name == "Other")).length =
      ((res.map name_alloc).filter (fun p => p.1 == "Other")).length := by
  induction res with
  | nil => rfl
  | cons c cs ih =>
    cases h : (c.name == "Other") with
    | true => simp [List.filter_cons, name_alloc, h, ih]
    | false => simp [List.filter_cons, name_alloc, h, ih]

lemma init_hfive : ∀ x ∈ main_names,
    get_budget_categories.any (fun c => c.name == x) = true := by
  decide

lemma init_other_spent : other_spent get_budget_categories = 0 := by
  simp [other_spent, get_budget_categories]

/-- Claim C5: for every input sequence over the fixed starting catalog,
an overflow category named "Other" with allocated amount 0 is appended
at the end of the catalog exactly when some transaction classifies as
"Other"; the five original categories keep their order; at most one
"Other" category ever exists (later unmatched transactions accumulate
into it rather than creating a duplicate); and its accumulated spent
amount is the sum of the absolute amounts of all "Other"-classified
transactions (so the first such transaction creates it with spent
amount equal to its own absolute amount). -/
theorem claim_C5 (ts : List Transaction) :
    ((categorize_transactions ts get_budget_categories).map name_alloc =
        get_budget_categories.map name_alloc ++ [("Other", (0 : ℚ))] ↔ ts.any is_other = true)
    ∧ (ts.any is_other = false →
        (categorize_transactions ts get_budget_categories).map name_alloc =
          get_budget_categories.map name_alloc)
    ∧ ((categorize_transactions ts get_budget_categories).filter
        (fun c => c.name == "Other")).length ≤ 1
    ∧ other_spent (categorize_transactions ts get_budget_categories) =
        ((ts.filter is_other).map (fun t => |t.amount|)).sum := by
  have hsh := categorize_shape ts get_budget_categories false (by simp)
  rw [Bool.false_or] at hsh
  refine ⟨⟨?_, ?_⟩, ?_, ?_, ?_⟩
  · intro heq
    cases hany : ts.any is_other with
    | true => rfl
    | false =>
      rw [hany, if_neg (by simp), List.append_nil] at hsh
      rw [hsh] at heq
      exact absurd heq (by simp)
  · intro hany
    rw [hsh, hany, if_pos rfl]
  · intro hany
    rw [hsh, hany, if_neg (by simp), List.append_nil]
  · rw [filter_other_length, hsh]
    cases hany : ts.any is_other with
    | true => simp [get_budget_categories, name_alloc]
    | false => simp [get_budget_categories, name_alloc]
  · rw [categorize_other_spent ts get_budget_categories init_hfive, init_other_spent]
    ring

/-- A transaction matching no keyword rule. -/
def gift_txn : Transaction :=
  { date := "2024-05-04T12:00:00Z", description := "Gift Shop", amount := -12 }

/-- Witness for C5: a single unmatched transaction appends exactly one
"Other" category with allocated amount 0, whose spent amount is the
transaction's absolute amount. -/
theorem claim_C5_witness :
    (categorize_transactions [gift_txn] get_budget_categories).map name_alloc =
      get_budget_categories.map name_alloc ++ [("Other", (0 : ℚ))]
    ∧ other_spent (categorize_transactions [gift_txn] get_budget_categories) = 12 := by
  refine ⟨((claim_C5 [gift_txn]).1).mpr (by decide), ?_⟩
  rw [(claim_C5 [gift_txn]).2.2.2]
  have hio : is_other gift_txn = true := by decide
  simp only [List.filter_cons, hio, if_true, List.filter_nil, List.map_cons, List.map_nil,
    List.sum_cons, List.sum_nil]
  simp only [gift_txn]
  rw [abs_of_nonpos (by norm_num)]
  norm_num
